import Mathlib

/-!
# Verification of the OpenXcom-OXCE manufacturing (`Production`) subsystem

Shallow embedding of `src/Savegame/Production.cpp`.  A `Production` is one
active manufacturing order at a base; `Production.step` is the per-tick
advancement algorithm.  External collaborators present only through their
interfaces (item stock, funds ledger, craft roster, transfer queue, RNG)
are modelled as explicit state records and environment parameters,
following the collaborator contracts of the specification where their
implementation is not part of the sources.

C++ `int` arithmetic is modelled as `Int`; C++ integer division truncates
toward zero, which is `Int.tdiv`.
-/

namespace OXC

/-- A rule-catalog item (`RuleItem`).  Only the facets `Production.cpp`
reads are modelled: the type identifier, the base/game adjusted sell value
(`getSellCostAdjusted`, a collaborator outside the sources, modelled as a
fixed per-item value per the spec's "adjusted sell value"), and whether
the battle type is `BT_NONE`. -/
structure RuleItem where
  itemType : String
  sellCostAdjusted : Int
  battleTypeIsNone : Bool
deriving DecidableEq, Repr

/-- The immutable manufacturing recipe (`RuleManufacture`), with exactly
the fields `Production.cpp` consults. -/
structure RuleManufacture where
  /-- `getManufactureTime` : labor-time per unit. -/
  manufactureTime : Int
  /-- `getManufactureCost` : funds per unit. -/
  manufactureCost : Int
  /-- `getRequiredItems` : item/quantity pairs consumed per unit. -/
  requiredItems : List (RuleItem × Int)
  /-- `getRequiredCrafts` : craft-rule-type/count pairs required per unit. -/
  requiredCrafts : List (String × Int)
  /-- `getProducedCraft` : the produced craft rule type, when the recipe
  produces a craft (exclusive with item output). -/
  producedCraft : Option String
  /-- `getProducedItems` : item/quantity pairs produced per unit. -/
  producedItems : List (RuleItem × Int)
  /-- `getRandomProducedItems` : weight / item-set pairs for the
  weighted-random alternate outputs. -/
  randomProducedItems : List (Int × List (RuleItem × Int))
  /-- `getSpawnedPersonType` : empty string means no person is spawned. -/
  spawnedPersonType : String
  /-- `getSpawnedPersonName` : optional custom-name localization key. -/
  spawnedPersonName : String
  /-- `getPoints` : research-score delta per unit (negatives allowed). -/
  points : Int
deriving DecidableEq, Repr

/-- A craft at the base.  Craft internals (`initFixedWeapons`, `checkup`)
are not visible to this subsystem; the model keeps the rule type, the id issued
by the saved game, and the list of `reuseItem` notifications the craft has
received (the refueling/rearming hook). -/
structure CraftObj where
  ruleType : String
  craftId : Int
  reuseNotices : List String
deriving DecidableEq, Repr

/-- Payload of a pending transfer: staff counters or one generated
soldier (modelled by the soldier rule type and the chosen name). -/
inductive TransferPayload where
  | scientists (n : Int)
  | engineers (n : Int)
  | soldier (soldierType : String) (name : String)
deriving DecidableEq, Repr

/-- A pending arrival (`Transfer(24)` in the sources): fixed hour delay
plus payload. -/
structure TransferObj where
  hours : Int
  payload : TransferPayload
deriving DecidableEq, Repr

/-- The base-side state `Production` touches.  Item stock is the
`ItemContainer` collaborator, modelled per the spec contract
(`getItem`/`addItem`/`removeItem`) as a total map from item type to
quantity.  `availableQuarters`/`usedQuarters` are the base accessor
results consulted by the living-space check. -/
structure BaseState where
  stock : String → Int
  crafts : List CraftObj
  transfers : List TransferObj
  availableQuarters : Int
  usedQuarters : Int

/-- The saved-game side state: funds ledger, cumulative research score,
and the per-type fresh-id counters behind `SavedGame::getId`. -/
structure GameState where
  funds : Int
  researchScore : Int
  ids : String → Int

/-- The mutable fields of `Production` (constructor
`Production(rules, amount)` plus setters). `_randomProductionInfo` (a
`std::map<std::string,int>` whose `operator[]` default-inserts 0) is
modelled as a total map from item type to tally. -/
structure Production where
  rules : RuleManufacture
  amount : Int
  infinite : Bool
  timeSpent : Int
  engineers : Int
  sell : Bool
  randomProductionInfo : String → Int

/-- The `productionProgress_e` status enumeration. -/
inductive productionProgress_e where
  | PROGRESS_NOT_COMPLETE
  | PROGRESS_COMPLETE
  | PROGRESS_NOT_ENOUGH_MONEY
  | PROGRESS_NOT_ENOUGH_MATERIALS
  | PROGRESS_NOT_ENOUGH_LIVING_SPACE
deriving DecidableEq, Repr

open productionProgress_e

/-- Pointwise bump of a total map: `operator[] += d` / `addItem` /
`removeItem` effects. -/
def bumpFn (f : String → Int) (k : String) (d : Int) : String → Int :=
  fun t => if t = k then f t + d else f t

/-- `Production::getAmountProduced`:
`_timeSpent / manufactureTime` (C++ truncating division) when the time is
positive, else `_amount`. -/
def Production.getAmountProduced (p : Production) : Int :=
  if p.rules.manufactureTime > 0 then
    Int.tdiv p.timeSpent p.rules.manufactureTime
  else
    p.amount

/-- `Production::isQueuedOnly`: no progress made yet and nobody assigned. -/
def Production.isQueuedOnly (p : Production) : Bool :=
  p.timeSpent = 0 && p.engineers = 0

/-- `Production::haveEnoughMoneyForOneMoreUnit` delegates to
`RuleManufacture::haveEnoughMoneyForOneMoreUnit(funds)`, which is outside
the sources.  Modelled from the spec: "Funds check: current funds ≥
recipe's per-unit monetary cost." -/
def Production.haveEnoughMoneyForOneMoreUnit (p : Production) (g : GameState) : Bool :=
  g.funds ≥ p.rules.manufactureCost

/-- `Production::haveEnoughLivingSpaceForOneMoreUnit`: when the recipe
spawns a person, fail when `getAvailableQuarters() < getUsedQuarters()`;
otherwise pass. -/
def Production.haveEnoughLivingSpaceForOneMoreUnit (p : Production) (b : BaseState) : Bool :=
  if p.rules.spawnedPersonType ≠ "" then
    if b.availableQuarters < b.usedQuarters then false else true
  else true

/-- `Base::getCraftCountForProduction`, outside the sources.  Modelled
from the spec: the count of the required support-craft type present at
the base. -/
def craftCountForProduction (b : BaseState) (craftType : String) : Int :=
  ((b.crafts.filter (fun c => c.ruleType = craftType)).length : Int)

/-- `Production::haveEnoughMaterialsForOneMoreUnit`: every required item
is in stock in its required quantity and every required support-craft
type is present in its required count. -/
def Production.haveEnoughMaterialsForOneMoreUnit (p : Production) (b : BaseState) : Bool :=
  p.rules.requiredItems.all (fun i => !(b.stock i.1.itemType < i.2)) &&
  p.rules.requiredCrafts.all (fun i => !(craftCountForProduction b i.1 < i.2))

/-- Remove the first craft at the base whose rules match `craftType`
(`startItem`'s required-craft consumption: find, remove, destroy, break). -/
def removeFirstCraft : List CraftObj → String → List CraftObj
  | [], _ => []
  | c :: rest, craftType =>
    if c.ruleType = craftType then rest
    else c :: removeFirstCraft rest craftType

/-- `Production::startItem`: debit the per-unit cost from funds, remove
each required item's quantity from stock, and consume one craft per
required-craft entry. -/
def Production.startItem (p : Production) (b : BaseState) (g : GameState) :
    BaseState × GameState :=
  let g := { g with funds := g.funds - p.rules.manufactureCost }
  let b := p.rules.requiredItems.foldl
    (fun (b : BaseState) i => { b with stock := bumpFn b.stock i.1.itemType (-i.2) }) b
  let b := p.rules.requiredCrafts.foldl
    (fun (b : BaseState) i => { b with crafts := removeFirstCraft b.crafts i.1 }) b
  (b, g)

/-- `Production::refundItem`: credit the per-unit cost back to funds and
restore each required item's quantity to stock; consumed support craft
are not restored (the commented-out loop in the sources). -/
def Production.refundItem (p : Production) (b : BaseState) (g : GameState) :
    BaseState × GameState :=
  let g := { g with funds := g.funds + p.rules.manufactureCost }
  let b := p.rules.requiredItems.foldl
    (fun (b : BaseState) i => { b with stock := bumpFn b.stock i.1.itemType i.2 }) b
  (b, g)

/-- The environment `step` consumes through external collaborators:
`roll count` is the `RNG::generate(1, totalWeight)` draw made while
producing the unit at loop counter `count`; `genName count` the
auto-generated soldier name for that unit; `soldierRuleExists` whether
`Mod::getSoldier` finds a rule for a spawned-person type; `lang` the
text-lookup service. -/
structure StepEnv where
  roll : Int → Int
  genName : Int → String
  soldierRuleExists : String → Bool
  lang : String → String

/-- `SavedGame::getId`, outside the sources: issue the next serial for a
type and advance the counter. -/
def getId (g : GameState) (t : String) : Int × GameState :=
  (g.ids t, { g with ids := bumpFn g.ids t 1 })

/-- Notify every craft at the base to consider reusing an item
(`c->reuseItem(i.first)` over `b->getCrafts()`). -/
def notifyCrafts (b : BaseState) (t : String) : BaseState :=
  { b with crafts := b.crafts.map (fun c => { c with reuseNotices := c.reuseNotices ++ [t] }) }

/-- One produced item of the primary-output loop: sell it for its
adjusted value when `_sell` is set, otherwise stock it, bump
`_randomProductionInfo` when the recipe has weighted-random outputs, and
notify crafts for non-combat items. -/
def primaryItemStep (s : Production × BaseState × GameState) (i : RuleItem × Int) :
    Production × BaseState × GameState :=
  let p := s.1
  let b := s.2.1
  let g := s.2.2
  if p.sell then
    (p, b, { g with funds := g.funds + i.1.sellCostAdjusted * i.2 })
  else
    let b := { b with stock := bumpFn b.stock i.1.itemType i.2 }
    let p := if p.rules.randomProducedItems ≠ [] then
               { p with randomProductionInfo := bumpFn p.randomProductionInfo i.1.itemType i.2 }
             else p
    let b := if i.1.battleTypeIsNone then notifyCrafts b i.1.itemType else b
    (p, b, g)

/-- The primary-output branch of one produced unit: either instantiate
the produced craft and append it to the roster, or walk the produced
items with `primaryItemStep`. -/
def applyPrimaryOutput (p : Production) (b : BaseState) (g : GameState) :
    Production × BaseState × GameState :=
  match p.rules.producedCraft with
  | some craftType =>
      let idg := getId g craftType
      (p, { b with crafts := b.crafts ++ [⟨craftType, idg.1, []⟩] }, idg.2)
  | none =>
      p.rules.producedItems.foldl primaryItemStep (p, b, g)

/-- The cumulative-weight scan of the weighted-random branch: walk the
weight/item-set pairs accumulating `runningTotal` and return the first
set whose running total reaches the roll. -/
def selectRandomSet :
    List (Int × List (RuleItem × Int)) → Int → Int → Option (List (RuleItem × Int))
  | [], _, _ => none
  | s :: rest, runningTotal, roll =>
      let runningTotal := runningTotal + s.1
      if runningTotal ≥ roll then some s.2 else selectRandomSet rest runningTotal roll

/-- Granting one item of a selected weighted-random set: stock it, bump
the tally, notify crafts for non-combat items. -/
def applyRandomItem (s : Production × BaseState × GameState) (i : RuleItem × Int) :
    Production × BaseState × GameState :=
  let p := s.1
  let b := s.2.1
  let g := s.2.2
  let b := { b with stock := bumpFn b.stock i.1.itemType i.2 }
  let p := { p with randomProductionInfo := bumpFn p.randomProductionInfo i.1.itemType i.2 }
  let b := if i.1.battleTypeIsNone then notifyCrafts b i.1.itemType else b
  (p, b, g)

/-- The weighted-random branch of one produced unit ("Random
manufacture"): when the recipe defines weighted-random outputs, draw a
roll and apply the grants of the set selected by the cumulative-weight
scan. -/
def applyRandomPhase (env : StepEnv) (count : Int)
    (p : Production) (b : BaseState) (g : GameState) :
    Production × BaseState × GameState :=
  if p.rules.randomProducedItems ≠ [] then
    match selectRandomSet p.rules.randomProducedItems 0 (env.roll count) with
    | some itemSet => itemSet.foldl applyRandomItem (p, b, g)
    | none => (p, b, g)
  else (p, b, g)

/-- The spawned-person branch of one produced unit: scientists and
engineers become staff-counter transfers; any other type with a soldier
rule becomes a generated-soldier transfer named from the custom
localization key when present, else auto-generated. -/
def applyPersonSpawn (env : StepEnv) (count : Int) (p : Production) (b : BaseState) :
    BaseState :=
  let t := p.rules.spawnedPersonType
  if t ≠ "" then
    if t = "STR_SCIENTIST" then
      { b with transfers := b.transfers ++ [⟨24, TransferPayload.scientists 1⟩] }
    else if t = "STR_ENGINEER" then
      { b with transfers := b.transfers ++ [⟨24, TransferPayload.engineers 1⟩] }
    else if env.soldierRuleExists t then
      let name := if p.rules.spawnedPersonName ≠ "" then
                    env.lang p.rules.spawnedPersonName
                  else env.genName count
      { b with transfers := b.transfers ++ [⟨24, TransferPayload.soldier t name⟩] }
    else b
  else b

/-- The score branch of one produced unit: apply a non-zero recipe score
delta (negatives allowed) to the cumulative research score. -/
def applyPoints (p : Production) (g : GameState) : GameState :=
  if p.rules.points ≠ 0 then
    { g with researchScore := g.researchScore + p.rules.points }
  else g

/-- One iteration of the `do`-loop body of `Production::step` before the
`count++`: primary output, weighted-random branch, person spawn, score. -/
def produceUnit (env : StepEnv) (count : Int)
    (p : Production) (b : BaseState) (g : GameState) :
    Production × BaseState × GameState :=
  let s := applyPrimaryOutput p b g
  let s := applyRandomPhase env count s.1 s.2.1 s.2.2
  let b := applyPersonSpawn env count s.1 s.2.1
  let g := applyPoints s.1 s.2.2
  (s.1, b, g)

/-- Result of the batch loop: the state reached, the final value of the
loop counter `count`, and the early-return status if a mid-batch
affordability check failed. -/
structure BatchResult where
  prod : Production
  base : BaseState
  game : GameState
  count : Int
  early : Option productionProgress_e

/-- The `do { ... } while (count < produced)` loop of `Production::step`.
`fuel` bounds the number of iterations; `step` passes `max produced 1`
iterations, exactly the number the C++ loop performs absent an early
return.  Each iteration realizes one unit, increments `count`, and — when
more units remain in the batch — re-validates money then materials before
committing the next unit's cost with `startItem`. -/
def runBatch (env : StepEnv) (produced : Int) :
    Nat → Int → Production → BaseState → GameState → BatchResult
  | 0, count, p, b, g => ⟨p, b, g, count, none⟩
  | fuel + 1, count, p, b, g =>
    let s := produceUnit env count p b g
    let p := s.1
    let b := s.2.1
    let g := s.2.2
    let count := count + 1
    if count < produced then
      if p.haveEnoughMoneyForOneMoreUnit g = false then
        ⟨p, b, g, count, some PROGRESS_NOT_ENOUGH_MONEY⟩
      else if p.haveEnoughMaterialsForOneMoreUnit b = false then
        ⟨p, b, g, count, some PROGRESS_NOT_ENOUGH_MATERIALS⟩
      else
        let bg := p.startItem b g
        runBatch env produced fuel count p bg.1 bg.2
    else ⟨p, b, g, count, none⟩

/-- The code after the batch loop in `Production::step`: the completion
check, then — when at least one unit finished this tick — the
tick-boundary affordability checks (money, living space, materials) and
the `startItem` committing the next unit. -/
def stepBoundary (done : Int) (p : Production) (b : BaseState) (g : GameState) :
    BaseState × GameState × productionProgress_e :=
  if p.getAmountProduced ≥ p.amount ∧ p.infinite = false then
    (b, g, PROGRESS_COMPLETE)
  else if done < p.getAmountProduced then
    if p.haveEnoughMoneyForOneMoreUnit g = false then (b, g, PROGRESS_NOT_ENOUGH_MONEY)
    else if p.haveEnoughLivingSpaceForOneMoreUnit b = false then
      (b, g, PROGRESS_NOT_ENOUGH_LIVING_SPACE)
    else if p.haveEnoughMaterialsForOneMoreUnit b = false then
      (b, g, PROGRESS_NOT_ENOUGH_MATERIALS)
    else
      let bg := p.startItem b g
      (bg.1, bg.2, PROGRESS_NOT_COMPLETE)
  else (b, g, PROGRESS_NOT_COMPLETE)

/-- Result of one `step` call: the final state, the returned status, and
the values of the C++ locals `done`, `produced` and `count` (the last two
are 0 when the batch loop was not entered). -/
structure StepResult where
  prod : Production
  base : BaseState
  game : GameState
  status : productionProgress_e
  done : Int
  produced : Int
  count : Int

/-- The C++ local `produced`: the units to realize this tick, clamped by
`std::min` to the target for bounded orders ("because we don't want to
overproduce"). -/
def producedOf (p1 : Production) (done : Int) : Int :=
  if p1.infinite = false then min p1.getAmountProduced p1.amount - done
  else p1.getAmountProduced - done

/-- `Production::step`, with the loop locals exposed: record `done`, add
the assigned engineers to `_timeSpent`, run the batch loop when the
completed-unit count increased (clamping the batch to `_amount` for
bounded orders), then the post-loop completion/boundary logic. -/
def stepFull (env : StepEnv) (p : Production) (b : BaseState) (g : GameState) :
    StepResult :=
  let done := p.getAmountProduced
  let p1 := { p with timeSpent := p.timeSpent + p.engineers }
  if done < p1.getAmountProduced then
    let produced := producedOf p1 done
    let r := runBatch env produced (max produced 1).toNat 0 p1 b g
    match r.early with
    | some st => ⟨r.prod, r.base, r.game, st, done, produced, r.count⟩
    | none =>
      let bgs := stepBoundary done r.prod r.base r.game
      ⟨r.prod, bgs.1, bgs.2.1, bgs.2.2, done, produced, r.count⟩
  else
    let bgs := stepBoundary done p1 b g
    ⟨p1, bgs.1, bgs.2.1, bgs.2.2, done, 0, 0⟩

/-- `Production::step` as the caller sees it: the mutated order, base and
game state plus the returned status. -/
def Production.step (env : StepEnv) (p : Production) (b : BaseState) (g : GameState) :
    Production × BaseState × GameState × productionProgress_e :=
  let r := stepFull env p b g
  (r.prod, r.base, r.game, r.status)

/-- The saved-order record `Production::load` reads: each field is
`none` when absent from the YAML node (in which case the in-memory value
is kept, the `as<T>(default)` pattern). -/
structure ProductionSaveNode where
  assigned : Option Int
  spent : Option Int
  amount : Option Int
  infinite : Option Bool
  sell : Option Bool
  randomProductionInfo : Option (String → Int)

/-- `INT_MAX` from `<climits>` (32-bit C++ `int`). -/
def INT_MAX : Int := 2147483647

/-- `Production::load`: restore the scalar fields (keeping the in-memory
value when a field is absent), restore the tally when the recipe defines
weighted-random outputs, then the backwards-compatibility fixup: a target
amount equal to `INT_MAX` becomes target 999, infinite, sell. -/
def Production.load (p : Production) (node : ProductionSaveNode) : Production :=
  let p := { p with engineers := node.assigned.getD p.engineers }
  let p := { p with timeSpent := node.spent.getD p.timeSpent }
  let p := { p with amount := node.amount.getD p.amount }
  let p := { p with infinite := node.infinite.getD p.infinite }
  let p := { p with sell := node.sell.getD p.sell }
  let p := if p.rules.randomProducedItems ≠ [] then
             { p with randomProductionInfo := node.randomProductionInfo.getD p.randomProductionInfo }
           else p
  if p.amount = INT_MAX then
    { p with amount := 999, infinite := true, sell := true }
  else p

/-- Total quantity an item/quantity list carries for a given item type
(specification-side accounting used to characterize the stock and tally
folds). -/
def itemsAt : List (RuleItem × Int) → String → Int
  | [], _ => 0
  | i :: rest, t => (if i.1.itemType = t then i.2 else 0) + itemsAt rest t

/-- Cumulative weight of the first `k` weight/item-set pairs
(specification-side accounting for the roulette scan). -/
def cumWeight (l : List (Int × List (RuleItem × Int))) (k : Nat) : Int :=
  ((l.take k).map Prod.fst).sum

/-- The tally increment one produced unit contributes for an item type:
nothing when the recipe has no weighted-random outputs; otherwise the
stocked regular produced items (when there is no craft output and the
order is not liquidating) plus the grants of the selected random set. -/
def tallyDelta (env : StepEnv) (count : Int) (p : Production) (t : String) : Int :=
  if p.rules.randomProducedItems = [] then 0
  else
    (match p.rules.producedCraft with
     | some _ => 0
     | none => if p.sell then 0 else itemsAt p.rules.producedItems t)
    + (match selectRandomSet p.rules.randomProducedItems 0 (env.roll count) with
       | some itemSet => itemsAt itemSet t
       | none => 0)

/-- One full batch iteration that was followed by another: realize the
unit at loop counter `count`, then commit the next unit's cost. -/
def oneBatchIter (env : StepEnv) (count : Int)
    (s : Production × BaseState × GameState) : Production × BaseState × GameState :=
  let u := produceUnit env count s.1 s.2.1 s.2.2
  let bg := u.1.startItem u.2.1 u.2.2
  (u.1, bg.1, bg.2)

/-- `j` full batch iterations starting at loop counter `count`: the
state from which the `(count+j)`-th unit is produced. -/
def batchIter (env : StepEnv) : Nat → Int → (Production × BaseState × GameState) →
    Production × BaseState × GameState
  | 0, _, s => s
  | j + 1, count, s => batchIter env j (count + 1) (oneBatchIter env count s)

/-! ## Concrete fixtures used by witnesses and counterexamples -/

/-- A plain non-combat item. -/
def itemX : RuleItem := ⟨"STR_ITEM_X", 5, true⟩

/-- A second plain non-combat item, granted only by random outputs in the
fixtures. -/
def itemY : RuleItem := ⟨"STR_ITEM_Y", 3, true⟩

/-- An item consumed as a manufacturing ingredient in the fixtures. -/
def itemIng : RuleItem := ⟨"STR_INGREDIENT", 2, false⟩

/-- The recipe of spec scenario 7: cost 100, time 10 per unit, producing
one `itemX`. -/
def recipeBasic : RuleManufacture :=
  ⟨10, 100, [], [], none, [(itemX, 1)], [], "", "", 0⟩

/-- A recipe that needs two ingredients per unit and produces one
`itemX`. -/
def recipeReq : RuleManufacture :=
  ⟨10, 100, [(itemIng, 2)], [("STR_SKYRANGER", 1)], none, [(itemX, 1)], [], "", "", 0⟩

/-- An instantaneous recipe (time 0). -/
def recipeInstant : RuleManufacture :=
  ⟨0, 100, [], [], none, [(itemX, 1)], [], "", "", 0⟩

/-- A recipe spawning a scientist. -/
def recipeSci : RuleManufacture :=
  ⟨10, 0, [], [], none, [], [], "STR_SCIENTIST", "", 0⟩

/-- A recipe with both a regular produced item (two `itemX`) and a
single weighted-random output set granting one `itemY`. -/
def recipeRandom : RuleManufacture :=
  ⟨1, 0, [], [], none, [(itemX, 2)], [(1, [(itemY, 1)])], "", "", 0⟩

/-- A deterministic environment: every roll is 1, generated names and
localization are fixed. -/
def env0 : StepEnv := ⟨fun _ => 1, fun _ => "GENERATED", fun _ => false, fun s => s⟩

/-- An empty base with room to spare. -/
def base0 : BaseState := ⟨fun _ => 0, [], [], 10, 0⟩

/-- A base whose living quarters are exactly full. -/
def baseFull : BaseState := ⟨fun _ => 0, [], [], 5, 5⟩

/-- A base whose living quarters are over capacity. -/
def baseOver : BaseState := ⟨fun _ => 0, [], [], 5, 6⟩

/-- A base holding four ingredients and one Skyranger. -/
def baseStocked : BaseState :=
  ⟨fun t => if t = "STR_INGREDIENT" then 4 else 0,
   [⟨"STR_SKYRANGER", 1, []⟩], [], 10, 0⟩

/-- A funds ledger with 250 funds (spec scenario 7). -/
def game250 : GameState := ⟨250, 0, fun _ => 1⟩

/-- A funds ledger with 50 funds (spec scenario 8). -/
def game50 : GameState := ⟨50, 0, fun _ => 1⟩

/-- Scenario-7 order: target 3, one engineer, given elapsed labor. -/
def pBasic (spent : Int) : Production :=
  ⟨recipeBasic, 3, false, spent, 1, false, fun _ => 0⟩

/-- An order on the instantaneous recipe. -/
def pInstant : Production := ⟨recipeInstant, 3, false, 0, 1, false, fun _ => 0⟩

/-- A scientist-spawning order one tick from completion of a unit. -/
def pSci : Production := ⟨recipeSci, 3, false, 9, 1, false, fun _ => 0⟩

/-- A batch order: twenty engineers complete two units in one tick. -/
def pBatch : Production := ⟨recipeBasic, 3, false, 0, 20, false, fun _ => 0⟩

/-- An order on the random-output recipe. -/
def pRandom : Production := ⟨recipeRandom, 1, false, 0, 1, false, fun _ => 0⟩

/-- An order on the ingredient-consuming recipe. -/
def pReq : Production := ⟨recipeReq, 3, false, 9, 1, false, fun _ => 0⟩

/-- An over-labored bounded order: elapsed labor 100 at 10 per unit
implies 10 units, yet the target is only 3. -/
def pOver : Production := ⟨recipeBasic, 3, false, 100, 1, false, fun _ => 0⟩

/-- A saved record carrying the `INT_MAX` sentinel target. -/
def nodeMax : ProductionSaveNode := ⟨some 4, some 7, some INT_MAX, some false, some false, none⟩

/-- A saved record with an ordinary target. -/
def nodePlain : ProductionSaveNode := ⟨some 4, some 7, some 5, some true, none, none⟩

/-! ## C1 — `getAmountProduced` -/

/-- C1: for every order whose recipe has `timePerUnit > 0`, the
completed-unit count returned by `getAmountProduced` equals
`elapsedLabor` divided by `timePerUnit` using (truncating) integer
division, and is monotonically non-decreasing in `elapsedLabor`; when
`timePerUnit` is 0 or negative, the completed-unit count equals
`targetAmount`. -/
theorem C1_getAmountProduced_correct (p : Production) :
    (p.rules.manufactureTime > 0 →
      p.getAmountProduced = Int.tdiv p.timeSpent p.rules.manufactureTime ∧
      (∀ s1 s2 : Int, 0 ≤ s1 → s1 ≤ s2 →
        Production.getAmountProduced { p with timeSpent := s1 } ≤
          Production.getAmountProduced { p with timeSpent := s2 })) ∧
    (p.rules.manufactureTime ≤ 0 → p.getAmountProduced = p.amount) := by
  constructor
  · intro ht
    constructor
    · simp [Production.getAmountProduced, ht]
    · intro s1 s2 h0 h12
      simp only [Production.getAmountProduced, ht, if_pos]
      rw [Int.tdiv_eq_ediv h0 ht.le, Int.tdiv_eq_ediv (h0.trans h12) ht.le]
      exact Int.ediv_le_ediv ht h12
  · intro ht
    simp [Production.getAmountProduced, not_lt.mpr ht]

/-- Witness for C1 at the scenario-7 order (labor 25, time 10: 2 units)
and at the instantaneous recipe. -/
theorem C1_getAmountProduced_correct_witness :
    (pBasic 25).getAmountProduced = Int.tdiv (pBasic 25).timeSpent (pBasic 25).rules.manufactureTime ∧
    Production.getAmountProduced { pBasic 25 with timeSpent := 3 } ≤
      Production.getAmountProduced { pBasic 25 with timeSpent := 5 } ∧
    pInstant.getAmountProduced = pInstant.amount :=
  ⟨((C1_getAmountProduced_correct (pBasic 25)).1 (by decide)).1,
   ((C1_getAmountProduced_correct (pBasic 25)).1 (by decide)).2 3 5 (by decide) (by decide),
   (C1_getAmountProduced_correct pInstant).2 (by decide)⟩

/-! ## C4 — the living-space check -/

/-- C4 counterexample: at a base whose used quarters equal its available
quarters, a person-spawning recipe's living-space check passes, though
the claim says it fails whenever used quarters are greater than or equal
to available quarters. -/
theorem C4_counterexample :
    pSci.rules.spawnedPersonType ≠ "" ∧
    baseFull.usedQuarters ≥ baseFull.availableQuarters ∧
    pSci.haveEnoughLivingSpaceForOneMoreUnit baseFull = true := by
  refine ⟨by decide, by decide, by decide⟩

/-- C4 amended: for every order whose recipe spawns a person, the
living-space check fails exactly when the base's used living quarters
are strictly greater than its available living quarters; for recipes
that spawn no person the check always passes. -/
theorem C4_livingSpace_char (p : Production) (b : BaseState) :
    p.haveEnoughLivingSpaceForOneMoreUnit b = false ↔
      (p.rules.spawnedPersonType ≠ "" ∧ b.availableQuarters < b.usedQuarters) := by
  unfold Production.haveEnoughLivingSpaceForOneMoreUnit
  by_cases hs : p.rules.spawnedPersonType = ""
  · simp [hs]
  · by_cases hq : b.availableQuarters < b.usedQuarters <;> simp [hs, hq]

/-! ## C9 — load and the `INT_MAX` sentinel -/

/-- C9: loading a record whose (effective) target amount is the
`INT_MAX` sentinel reinterprets the order as target 999, infinite, sell;
any other loaded target amount is taken as-is, along with the stored (or
kept-at-default) infinite and sell flags. -/
theorem C9_load_sentinel (p : Production) (node : ProductionSaveNode) :
    (node.amount.getD p.amount = INT_MAX →
      (p.load node).amount = 999 ∧ (p.load node).infinite = true ∧
        (p.load node).sell = true) ∧
    (node.amount.getD p.amount ≠ INT_MAX →
      (p.load node).amount = node.amount.getD p.amount ∧
      (p.load node).infinite = node.infinite.getD p.infinite ∧
      (p.load node).sell = node.sell.getD p.sell) := by
  unfold Production.load
  constructor
  · intro h
    by_cases hr : p.rules.randomProducedItems = [] <;> simp [hr, h, INT_MAX]
  · intro h
    by_cases hr : p.rules.randomProducedItems = [] <;> simp [hr, if_neg h]

/-- Witness for C9: the sentinel record migrates to (999, infinite,
sell); an ordinary record restores its stored fields. -/
theorem C9_load_sentinel_witness :
    ((Production.load (pBasic 0) nodeMax).amount = 999 ∧
      (Production.load (pBasic 0) nodeMax).infinite = true ∧
      (Production.load (pBasic 0) nodeMax).sell = true) ∧
    ((Production.load (pBasic 0) nodePlain).amount = 5 ∧
      (Production.load (pBasic 0) nodePlain).infinite = true ∧
      (Production.load (pBasic 0) nodePlain).sell = false) :=
  ⟨(C9_load_sentinel (pBasic 0) nodeMax).1 (by decide),
   by
     have h := (C9_load_sentinel (pBasic 0) nodePlain).2 (by decide)
     simpa [nodePlain, pBasic] using h⟩

/-! ## C7 — `startItem` then `refundItem` -/

/-- The stock-consuming fold of `startItem`, evaluated pointwise. -/
theorem stockFoldSub_stock (l : List (RuleItem × Int)) (b : BaseState) (t : String) :
    ((l.foldl (fun (b : BaseState) i =>
        { b with stock := bumpFn b.stock i.1.itemType (-i.2) }) b).stock) t =
      b.stock t - itemsAt l t := by
  induction l generalizing b with
  | nil => simp [itemsAt]
  | cons i rest ih =>
    rw [List.foldl_cons, ih]
    simp only [bumpFn, itemsAt]
    by_cases h : i.1.itemType = t
    · rw [if_pos h.symm, if_pos h]
      omega
    · rw [if_neg (fun hh => h hh.symm), if_neg h]
      omega

/-- The stock-restoring fold of `refundItem`, evaluated pointwise. -/
theorem stockFoldAdd_stock (l : List (RuleItem × Int)) (b : BaseState) (t : String) :
    ((l.foldl (fun (b : BaseState) i =>
        { b with stock := bumpFn b.stock i.1.itemType i.2 }) b).stock) t =
      b.stock t + itemsAt l t := by
  induction l generalizing b with
  | nil => simp [itemsAt]
  | cons i rest ih =>
    rw [List.foldl_cons, ih]
    simp only [bumpFn, itemsAt]
    by_cases h : i.1.itemType = t
    · rw [if_pos h.symm, if_pos h]
      omega
    · rw [if_neg (fun hh => h hh.symm), if_neg h]
      omega

/-- The stock-consuming fold leaves the craft roster unchanged. -/
theorem stockFoldSub_crafts (l : List (RuleItem × Int)) (b : BaseState) :
    (l.foldl (fun (b : BaseState) i =>
        { b with stock := bumpFn b.stock i.1.itemType (-i.2) }) b).crafts = b.crafts := by
  induction l generalizing b with
  | nil => rfl
  | cons i rest ih => simpa using ih _

/-- The stock-consuming fold leaves the transfers unchanged. -/
theorem stockFoldSub_transfers (l : List (RuleItem × Int)) (b : BaseState) :
    (l.foldl (fun (b : BaseState) i =>
        { b with stock := bumpFn b.stock i.1.itemType (-i.2) }) b).transfers = b.transfers := by
  induction l generalizing b with
  | nil => rfl
  | cons i rest ih => simpa using ih _

/-- The stock-restoring fold leaves the craft roster unchanged. -/
theorem stockFoldAdd_crafts (l : List (RuleItem × Int)) (b : BaseState) :
    (l.foldl (fun (b : BaseState) i =>
        { b with stock := bumpFn b.stock i.1.itemType i.2 }) b).crafts = b.crafts := by
  induction l generalizing b with
  | nil => rfl
  | cons i rest ih => simpa using ih _

/-- The stock-restoring fold leaves the transfers unchanged. -/
theorem stockFoldAdd_transfers (l : List (RuleItem × Int)) (b : BaseState) :
    (l.foldl (fun (b : BaseState) i =>
        { b with stock := bumpFn b.stock i.1.itemType i.2 }) b).transfers = b.transfers := by
  induction l generalizing b with
  | nil => rfl
  | cons i rest ih => simpa using ih _

/-- The craft-consuming fold of `startItem` leaves the stock unchanged. -/
theorem craftFold_stock (l : List (String × Int)) (b : BaseState) :
    (l.foldl (fun (b : BaseState) i =>
        { b with crafts := removeFirstCraft b.crafts i.1 }) b).stock = b.stock := by
  induction l generalizing b with
  | nil => rfl
  | cons i rest ih => simpa using ih _

/-- The craft-consuming fold of `startItem` leaves the transfers
unchanged. -/
theorem craftFold_transfers (l : List (String × Int)) (b : BaseState) :
    (l.foldl (fun (b : BaseState) i =>
        { b with crafts := removeFirstCraft b.crafts i.1 }) b).transfers = b.transfers := by
  induction l generalizing b with
  | nil => rfl
  | cons i rest ih => simpa using ih _

/-- The game-state half of `startItem` is exactly the cost debit. -/
theorem startItem_game (p : Production) (b : BaseState) (g : GameState) :
    (p.startItem b g).2 = { g with funds := g.funds - p.rules.manufactureCost } := rfl

/-- The game-state half of `refundItem` is exactly the cost credit. -/
theorem refundItem_game (p : Production) (b : BaseState) (g : GameState) :
    (p.refundItem b g).2 = { g with funds := g.funds + p.rules.manufactureCost } := rfl

/-- The stock after `startItem`, pointwise. -/
theorem startItem_stock (p : Production) (b : BaseState) (g : GameState) (t : String) :
    ((p.startItem b g).1).stock t = b.stock t - itemsAt p.rules.requiredItems t := by
  show ((p.rules.requiredCrafts.foldl _ (p.rules.requiredItems.foldl _ b)).stock) t = _
  rw [craftFold_stock, stockFoldSub_stock]

/-- The stock after `refundItem`, pointwise. -/
theorem refundItem_stock (p : Production) (b : BaseState) (g : GameState) (t : String) :
    ((p.refundItem b g).1).stock t = b.stock t + itemsAt p.rules.requiredItems t := by
  show ((p.rules.requiredItems.foldl _ b).stock) t = _
  rw [stockFoldAdd_stock]

/-- `refundItem` leaves the craft roster unchanged (the commented-out
required-crafts loop). -/
theorem refundItem_crafts (p : Production) (b : BaseState) (g : GameState) :
    ((p.refundItem b g).1).crafts = b.crafts := by
  show (p.rules.requiredItems.foldl _ b).crafts = _
  rw [stockFoldAdd_crafts]

/-- `startItem` leaves the transfers unchanged. -/
theorem startItem_transfers (p : Production) (b : BaseState) (g : GameState) :
    ((p.startItem b g).1).transfers = b.transfers := by
  show (p.rules.requiredCrafts.foldl _ (p.rules.requiredItems.foldl _ b)).transfers = _
  rw [craftFold_transfers, stockFoldSub_transfers]

/-- `refundItem` leaves the transfers unchanged. -/
theorem refundItem_transfers (p : Production) (b : BaseState) (g : GameState) :
    ((p.refundItem b g).1).transfers = b.transfers := by
  show (p.rules.requiredItems.foldl _ b).transfers = _
  rw [stockFoldAdd_transfers]

/-- C7: with every required item present in stock, `startItem` followed
by `refundItem` restores the funds ledger and the stock quantity of
every item type exactly to their pre-`startItem` values, while the craft
roster keeps exactly its post-`startItem` value: the support craft
consumed by `startItem` are not restored. -/
theorem C7_startItem_refundItem (p : Production) (b : BaseState) (g : GameState)
    (hstock : ∀ i ∈ p.rules.requiredItems, i.2 ≤ b.stock i.1.itemType) :
    ((p.refundItem (p.startItem b g).1 (p.startItem b g).2).2).funds = g.funds ∧
    (∀ t, ((p.refundItem (p.startItem b g).1 (p.startItem b g).2).1).stock t = b.stock t) ∧
    ((p.refundItem (p.startItem b g).1 (p.startItem b g).2).1).crafts =
      ((p.startItem b g).1).crafts ∧
    ((p.refundItem (p.startItem b g).1 (p.startItem b g).2).1).transfers = b.transfers := by
  refine ⟨?_, ?_, ?_, ?_⟩
  · rw [refundItem_game, startItem_game]
    simp
  · intro t
    rw [refundItem_stock, startItem_stock]
    omega
  · rw [refundItem_crafts]
  · rw [refundItem_transfers, startItem_transfers]

/-- Witness for C7 on the ingredient-consuming recipe at a base stocked
with four ingredients and one Skyranger. -/
theorem C7_startItem_refundItem_witness :
    ((pReq.refundItem (pReq.startItem baseStocked game250).1
        (pReq.startItem baseStocked game250).2).2).funds = game250.funds ∧
    (∀ t, ((pReq.refundItem (pReq.startItem baseStocked game250).1
        (pReq.startItem baseStocked game250).2).1).stock t = baseStocked.stock t) ∧
    ((pReq.refundItem (pReq.startItem baseStocked game250).1
        (pReq.startItem baseStocked game250).2).1).crafts =
      ((pReq.startItem baseStocked game250).1).crafts ∧
    ((pReq.refundItem (pReq.startItem baseStocked game250).1
        (pReq.startItem baseStocked game250).2).1).transfers = baseStocked.transfers :=
  C7_startItem_refundItem pReq baseStocked game250 (by decide)

/-! ## C10 — a tick that completes no unit -/

/-- When `done` did not fall below the completed-unit count, the
post-loop code neither mutates the base nor the game state and returns
`PROGRESS_COMPLETE` exactly for a bounded order at or above target. -/
theorem stepBoundary_noStart (done : Int) (p : Production) (b : BaseState) (g : GameState)
    (hd : ¬(done < p.getAmountProduced)) :
    stepBoundary done p b g =
      (b, g, if p.getAmountProduced ≥ p.amount ∧ p.infinite = false then PROGRESS_COMPLETE
             else PROGRESS_NOT_COMPLETE) := by
  unfold stepBoundary
  by_cases hc : p.getAmountProduced ≥ p.amount ∧ p.infinite = false
  · rw [if_pos hc, if_pos hc]
  · rw [if_neg hc, if_neg hc, if_neg hd]

/-- C10: a `step` call in which adding the assigned workers to the
elapsed labor does not increase the completed-unit count changes nothing
but `_timeSpent`: the base (stock, craft roster, transfers) and the game
state (funds, research score) are returned unchanged, and the status is
`PROGRESS_COMPLETE` exactly when the order is bounded with its
completed-unit count at or above the target, else
`PROGRESS_NOT_COMPLETE`. -/
theorem C10_no_unit_frame (env : StepEnv) (p : Production) (b : BaseState) (g : GameState)
    (h : Production.getAmountProduced { p with timeSpent := p.timeSpent + p.engineers } ≤
      p.getAmountProduced) :
    (stepFull env p b g).prod = { p with timeSpent := p.timeSpent + p.engineers } ∧
    (stepFull env p b g).base = b ∧
    (stepFull env p b g).game = g ∧
    (p.infinite = false ∧
        p.amount ≤ Production.getAmountProduced { p with timeSpent := p.timeSpent + p.engineers } →
      (stepFull env p b g).status = PROGRESS_COMPLETE) ∧
    (¬(p.infinite = false ∧
        p.amount ≤ Production.getAmountProduced { p with timeSpent := p.timeSpent + p.engineers }) →
      (stepFull env p b g).status = PROGRESS_NOT_COMPLETE) := by
  have hlt : ¬(p.getAmountProduced <
      Production.getAmountProduced { p with timeSpent := p.timeSpent + p.engineers }) :=
    not_lt.mpr h
  simp only [stepFull, stepBoundary_noStart _ _ _ _ hlt, if_neg hlt]
  refine ⟨by trivial, by trivial, by trivial, ?_, ?_⟩
  · intro hc
    rw [if_pos ⟨hc.2, hc.1⟩]
  · intro hc
    rw [if_neg (fun hcc => hc ⟨hcc.2, hcc.1⟩)]

/-- Witness for C10: a tick with no unit completed returns the state
unchanged with `PROGRESS_NOT_COMPLETE`, and an over-labored bounded
order returns `PROGRESS_COMPLETE`. -/
theorem C10_no_unit_frame_witness :
    ((stepFull env0 (pBasic 0) base0 game250).status = PROGRESS_NOT_COMPLETE ∧
      (stepFull env0 (pBasic 0) base0 game250).base = base0 ∧
      (stepFull env0 (pBasic 0) base0 game250).game = game250) ∧
    ((stepFull env0 pOver base0 game250).status = PROGRESS_COMPLETE ∧
      (stepFull env0 pOver base0 game250).base = base0) :=
  ⟨⟨(C10_no_unit_frame env0 (pBasic 0) base0 game250 (by decide)).2.2.2.2 (by decide),
    (C10_no_unit_frame env0 (pBasic 0) base0 game250 (by decide)).2.1,
    (C10_no_unit_frame env0 (pBasic 0) base0 game250 (by decide)).2.2.1⟩,
   ⟨(C10_no_unit_frame env0 pOver base0 game250 (by decide)).2.2.2.1 (by decide),
    (C10_no_unit_frame env0 pOver base0 game250 (by decide)).2.1⟩⟩

/-! ## The batch loop: early-return analysis -/

/-- An early return of the batch loop happens strictly mid-batch
(`count < produced`), and carries `PROGRESS_NOT_ENOUGH_MONEY` exactly
when the money check failed on the returned state, or
`PROGRESS_NOT_ENOUGH_MATERIALS` when the money check passed and the
materials check failed. -/
theorem runBatch_early (env : StepEnv) (produced : Int) :
    ∀ (fuel : Nat) (count : Int) (p : Production) (b : BaseState) (g : GameState)
      (st : productionProgress_e),
      (runBatch env produced fuel count p b g).early = some st →
      (runBatch env produced fuel count p b g).count < produced ∧
      ((st = PROGRESS_NOT_ENOUGH_MONEY ∧
        ((runBatch env produced fuel count p b g).prod).haveEnoughMoneyForOneMoreUnit
          (runBatch env produced fuel count p b g).game = false) ∨
       (st = PROGRESS_NOT_ENOUGH_MATERIALS ∧
        ((runBatch env produced fuel count p b g).prod).haveEnoughMoneyForOneMoreUnit
          (runBatch env produced fuel count p b g).game = true ∧
        ((runBatch env produced fuel count p b g).prod).haveEnoughMaterialsForOneMoreUnit
          (runBatch env produced fuel count p b g).base = false)) := by
  intro fuel
  induction fuel with
  | zero =>
    intro count p b g st h
    simp [runBatch] at h
  | succ fuel ih =>
    intro count p b g st h
    simp only [runBatch] at h ⊢
    by_cases h1 : count + 1 < produced
    · rw [if_pos h1] at h ⊢
      by_cases h2 : Production.haveEnoughMoneyForOneMoreUnit
          (produceUnit env count p b g).1 (produceUnit env count p b g).2.2 = false
      · rw [if_pos h2] at h ⊢
        simp only [Option.some.injEq] at h
        exact ⟨h1, Or.inl ⟨h.symm, h2⟩⟩
      · rw [if_neg h2] at h ⊢
        have h2t : Production.haveEnoughMoneyForOneMoreUnit
            (produceUnit env count p b g).1 (produceUnit env count p b g).2.2 = true := by
          revert h2
          cases Production.haveEnoughMoneyForOneMoreUnit
            (produceUnit env count p b g).1 (produceUnit env count p b g).2.2 <;> simp
        by_cases h3 : Production.haveEnoughMaterialsForOneMoreUnit
            (produceUnit env count p b g).1 (produceUnit env count p b g).2.1 = false
        · rw [if_pos h3] at h ⊢
          simp only [Option.some.injEq] at h
          exact ⟨h1, Or.inr ⟨h.symm, h2t, h3⟩⟩
        · rw [if_neg h3] at h ⊢
          exact ih _ _ _ _ _ h
    · rw [if_neg h1] at h
      simp at h

/-- The batch loop's final `count` is bounded by its fuel. -/
theorem runBatch_count_le (env : StepEnv) (produced : Int) :
    ∀ (fuel : Nat) (count : Int) (p : Production) (b : BaseState) (g : GameState),
      (runBatch env produced fuel count p b g).count ≤ count + (fuel : Int) := by
  intro fuel
  induction fuel with
  | zero =>
    intro count p b g
    simp [runBatch]
  | succ fuel ih =>
    intro count p b g
    simp only [runBatch]
    by_cases h1 : count + 1 < produced
    · rw [if_pos h1]
      by_cases h2 : Production.haveEnoughMoneyForOneMoreUnit
          (produceUnit env count p b g).1 (produceUnit env count p b g).2.2 = false
      · rw [if_pos h2]
        push_cast
        omega
      · rw [if_neg h2]
        by_cases h3 : Production.haveEnoughMaterialsForOneMoreUnit
            (produceUnit env count p b g).1 (produceUnit env count p b g).2.1 = false
        · rw [if_pos h3]
          push_cast
          omega
        · rw [if_neg h3]
          have := ih (count + 1) (produceUnit env count p b g).1
            (Production.startItem (produceUnit env count p b g).1
              (produceUnit env count p b g).2.1 (produceUnit env count p b g).2.2).1
            (Production.startItem (produceUnit env count p b g).1
              (produceUnit env count p b g).2.1 (produceUnit env count p b g).2.2).2
          push_cast at this ⊢
          omega
    · rw [if_neg h1]
      push_cast
      omega

/-- With enough fuel, a batch loop that returns without an early status
has run its counter up to `produced`. -/
theorem runBatch_none_ge (env : StepEnv) (produced : Int) :
    ∀ (fuel : Nat) (count : Int) (p : Production) (b : BaseState) (g : GameState),
      produced ≤ count + (fuel : Int) →
      (produced ≤ count ∨ 1 ≤ (fuel : Int)) →
      (runBatch env produced fuel count p b g).early = none →
      produced ≤ (runBatch env produced fuel count p b g).count := by
  intro fuel
  induction fuel with
  | zero =>
    intro count p b g hf hside h
    simp only [runBatch]
    rcases hside with hc | h1
    · exact hc
    · simp at h1
  | succ fuel ih =>
    intro count p b g hf hside h
    simp only [runBatch] at h ⊢
    by_cases h1 : count + 1 < produced
    · rw [if_pos h1] at h ⊢
      by_cases h2 : Production.haveEnoughMoneyForOneMoreUnit
          (produceUnit env count p b g).1 (produceUnit env count p b g).2.2 = false
      · rw [if_pos h2] at h
        simp at h
      · rw [if_neg h2] at h ⊢
        by_cases h3 : Production.haveEnoughMaterialsForOneMoreUnit
            (produceUnit env count p b g).1 (produceUnit env count p b g).2.1 = false
        · rw [if_pos h3] at h
          simp at h
        · rw [if_neg h3] at h ⊢
          refine ih _ _ _ _ ?_ ?_ h
          · push_cast at hf ⊢
            omega
          · push_cast at hf ⊢
            omega
    · rw [if_neg h1] at h ⊢
      show produced ≤ count + 1
      omega

/-- The failure statuses of the post-loop boundary code: each blocked
status is returned with the base and game state untouched and pins down
which check failed first (money, then living space, then materials). -/
theorem stepBoundary_status (done : Int) (p : Production) (b : BaseState) (g : GameState) :
    ((stepBoundary done p b g).2.2 = PROGRESS_NOT_ENOUGH_MONEY →
      p.haveEnoughMoneyForOneMoreUnit g = false ∧
      (stepBoundary done p b g).1 = b ∧ (stepBoundary done p b g).2.1 = g) ∧
    ((stepBoundary done p b g).2.2 = PROGRESS_NOT_ENOUGH_LIVING_SPACE →
      p.haveEnoughMoneyForOneMoreUnit g = true ∧
      p.haveEnoughLivingSpaceForOneMoreUnit b = false ∧
      (stepBoundary done p b g).1 = b ∧ (stepBoundary done p b g).2.1 = g) ∧
    ((stepBoundary done p b g).2.2 = PROGRESS_NOT_ENOUGH_MATERIALS →
      p.haveEnoughMoneyForOneMoreUnit g = true ∧
      p.haveEnoughLivingSpaceForOneMoreUnit b = true ∧
      p.haveEnoughMaterialsForOneMoreUnit b = false ∧
      (stepBoundary done p b g).1 = b ∧ (stepBoundary done p b g).2.1 = g) := by
  unfold stepBoundary
  by_cases hc : p.getAmountProduced ≥ p.amount ∧ p.infinite = false
  · rw [if_pos hc]
    refine ⟨?_, ?_, ?_⟩ <;> (intro hst; simp at hst)
  · rw [if_neg hc]
    by_cases hd : done < p.getAmountProduced
    · rw [if_pos hd]
      by_cases h2 : p.haveEnoughMoneyForOneMoreUnit g = false
      · rw [if_pos h2]
        refine ⟨fun _ => ⟨h2, rfl, rfl⟩, ?_, ?_⟩ <;> (intro hst; simp at hst)
      · rw [if_neg h2]
        have h2t : p.haveEnoughMoneyForOneMoreUnit g = true := by
          revert h2
          cases p.haveEnoughMoneyForOneMoreUnit g <;> simp
        by_cases h3 : p.haveEnoughLivingSpaceForOneMoreUnit b = false
        · rw [if_pos h3]
          refine ⟨?_, fun _ => ⟨h2t, h3, rfl, rfl⟩, ?_⟩ <;> (intro hst; simp at hst)
        · rw [if_neg h3]
          have h3t : p.haveEnoughLivingSpaceForOneMoreUnit b = true := by
            revert h3
            cases p.haveEnoughLivingSpaceForOneMoreUnit b <;> simp
          by_cases h4 : p.haveEnoughMaterialsForOneMoreUnit b = false
          · rw [if_pos h4]
            refine ⟨?_, ?_, fun _ => ⟨h2t, h3t, h4, rfl, rfl⟩⟩ <;> (intro hst; simp at hst)
          · rw [if_neg h4]
            refine ⟨?_, ?_, ?_⟩ <;> (intro hst; simp at hst)
    · rw [if_neg hd]
      refine ⟨?_, ?_, ?_⟩ <;> (intro hst; simp at hst)

/-! ## C3 — check order -/

/-- C3: whichever site returns a blocked status, the checks ran in the
fixed order money → living space (tick-boundary only) → materials on the
returned state, and the first failing check names the status: a money
status means the money check failed; a living-space status means the
money check passed, the living-space check failed, and the return was
not mid-batch; a materials status means the money check passed, the
materials check failed, and either the return was mid-batch (where no
living-space check runs) or the living-space check passed. -/
theorem C3_check_order (env : StepEnv) (p : Production) (b : BaseState) (g : GameState) :
    ((stepFull env p b g).status = PROGRESS_NOT_ENOUGH_MONEY →
      Production.haveEnoughMoneyForOneMoreUnit (stepFull env p b g).prod
        (stepFull env p b g).game = false) ∧
    ((stepFull env p b g).status = PROGRESS_NOT_ENOUGH_LIVING_SPACE →
      Production.haveEnoughMoneyForOneMoreUnit (stepFull env p b g).prod
        (stepFull env p b g).game = true ∧
      Production.haveEnoughLivingSpaceForOneMoreUnit (stepFull env p b g).prod
        (stepFull env p b g).base = false ∧
      ¬((stepFull env p b g).count < (stepFull env p b g).produced)) ∧
    ((stepFull env p b g).status = PROGRESS_NOT_ENOUGH_MATERIALS →
      Production.haveEnoughMoneyForOneMoreUnit (stepFull env p b g).prod
        (stepFull env p b g).game = true ∧
      Production.haveEnoughMaterialsForOneMoreUnit (stepFull env p b g).prod
        (stepFull env p b g).base = false ∧
      ((stepFull env p b g).count < (stepFull env p b g).produced ∨
       Production.haveEnoughLivingSpaceForOneMoreUnit (stepFull env p b g).prod
        (stepFull env p b g).base = true)) := by
  by_cases hl : p.getAmountProduced <
      Production.getAmountProduced { p with timeSpent := p.timeSpent + p.engineers }
  · simp only [stepFull, if_pos hl]
    cases hE : (runBatch env
        (producedOf { p with timeSpent := p.timeSpent + p.engineers } p.getAmountProduced)
        (max (producedOf { p with timeSpent := p.timeSpent + p.engineers }
          p.getAmountProduced) 1).toNat
        0 { p with timeSpent := p.timeSpent + p.engineers } b g).early with
    | some st0 =>
      simp only [hE]
      have H := runBatch_early env _ _ _ _ _ _ st0 hE
      refine ⟨?_, ?_, ?_⟩ <;> intro hst
      · rcases H.2 with ⟨hm, hmon⟩ | ⟨hm, _, _⟩
        · exact hmon
        · rw [hst] at hm
          simp at hm
      · rcases H.2 with ⟨hm, _⟩ | ⟨hm, _, _⟩ <;> (rw [hst] at hm; simp at hm)
      · rcases H.2 with ⟨hm, _⟩ | ⟨_, hmt, hmat⟩
        · rw [hst] at hm
          simp at hm
        · exact ⟨hmt, hmat, Or.inl H.1⟩
    | none =>
      simp only [hE]
      have HB := stepBoundary_status p.getAmountProduced
        (runBatch env
          (producedOf { p with timeSpent := p.timeSpent + p.engineers } p.getAmountProduced)
          (max (producedOf { p with timeSpent := p.timeSpent + p.engineers }
            p.getAmountProduced) 1).toNat
          0 { p with timeSpent := p.timeSpent + p.engineers } b g).prod
        (runBatch env
          (producedOf { p with timeSpent := p.timeSpent + p.engineers } p.getAmountProduced)
          (max (producedOf { p with timeSpent := p.timeSpent + p.engineers }
            p.getAmountProduced) 1).toNat
          0 { p with timeSpent := p.timeSpent + p.engineers } b g).base
        (runBatch env
          (producedOf { p with timeSpent := p.timeSpent + p.engineers } p.getAmountProduced)
          (max (producedOf { p with timeSpent := p.timeSpent + p.engineers }
            p.getAmountProduced) 1).toNat
          0 { p with timeSpent := p.timeSpent + p.engineers } b g).game
      have hge : ¬((runBatch env
          (producedOf { p with timeSpent := p.timeSpent + p.engineers } p.getAmountProduced)
          (max (producedOf { p with timeSpent := p.timeSpent + p.engineers }
            p.getAmountProduced) 1).toNat
          0 { p with timeSpent := p.timeSpent + p.engineers } b g).count <
          producedOf { p with timeSpent := p.timeSpent + p.engineers } p.getAmountProduced) := by
        refine not_lt.mpr (runBatch_none_ge env _ _ _ _ _ _ ?_ ?_ hE)
        · rw [zero_add]
          exact le_trans (le_max_left _ 1) (Int.self_le_toNat _)
        · exact Or.inr (le_trans (le_max_right _ 1) (Int.self_le_toNat _))
      refine ⟨?_, ?_, ?_⟩ <;> intro hst
      · obtain ⟨hm, _, hg2⟩ := HB.1 hst
        rw [hg2]
        exact hm
      · obtain ⟨hmt, hsf, hb2, hg2⟩ := HB.2.1 hst
        rw [hg2, hb2]
        exact ⟨hmt, hsf, hge⟩
      · obtain ⟨hmt, hst3, hmat, hb2, hg2⟩ := HB.2.2 hst
        rw [hg2, hb2]
        exact ⟨hmt, hmat, Or.inr hst3⟩
  · simp only [stepFull, if_neg hl, stepBoundary_noStart _ _ _ _ hl]
    refine ⟨?_, ?_, ?_⟩ <;> (intro hst; split at hst <;> simp at hst)

/-- Witness for C3: a scientist-spawning order at an over-capacity base
is blocked with the living-space status, with the money check passed and
the living-space check failed at the boundary (not mid-batch). -/
theorem C3_check_order_witness :
    Production.haveEnoughMoneyForOneMoreUnit (stepFull env0 pSci baseOver game250).prod
      (stepFull env0 pSci baseOver game250).game = true ∧
    Production.haveEnoughLivingSpaceForOneMoreUnit (stepFull env0 pSci baseOver game250).prod
      (stepFull env0 pSci baseOver game250).base = false ∧
    ¬((stepFull env0 pSci baseOver game250).count <
      (stepFull env0 pSci baseOver game250).produced) :=
  (C3_check_order env0 pSci baseOver game250).2.1 (by decide)

/-! ## C5 — bounded orders and the target clamp -/

/-- C5 counterexample: `getAmountProduced` itself is not clamped — a
bounded order with elapsed labor 100 at 10 per unit reports 10 completed
units although its target amount is 3. -/
theorem C5_counterexample :
    pOver.infinite = false ∧ pOver.getAmountProduced > pOver.amount := by
  refine ⟨rfl, by decide⟩

/-- C5 amended: the clamp lives in `step`: for a bounded order whose
completed count is still below the target, one `step` call realizes at
most `targetAmount - completedCount` units (the `std::min` clamp on
`produced`), so realized units never push past the target — while the
raw `getAmountProduced` value can exceed the target. -/
theorem C5_step_clamped (env : StepEnv) (p : Production) (b : BaseState) (g : GameState)
    (hb : p.infinite = false) (hlt : p.getAmountProduced < p.amount) :
    (stepFull env p b g).count ≤ p.amount - p.getAmountProduced := by
  by_cases hl : p.getAmountProduced <
      Production.getAmountProduced { p with timeSpent := p.timeSpent + p.engineers }
  · simp only [stepFull, if_pos hl]
    have hb1 : ({ p with timeSpent := p.timeSpent + p.engineers } : Production).infinite
        = false := hb
    have hprodEq : producedOf { p with timeSpent := p.timeSpent + p.engineers }
        p.getAmountProduced =
        min (Production.getAmountProduced { p with timeSpent := p.timeSpent + p.engineers })
          p.amount - p.getAmountProduced := by
      unfold producedOf
      rw [if_pos hb1]
    have hminle : min (Production.getAmountProduced
        { p with timeSpent := p.timeSpent + p.engineers }) p.amount ≤ p.amount :=
      min_le_right _ _
    have hminge : p.getAmountProduced + 1 ≤
        min (Production.getAmountProduced
          { p with timeSpent := p.timeSpent + p.engineers }) p.amount :=
      le_min (by omega) (by omega)
    have hp1 : 1 ≤ producedOf { p with timeSpent := p.timeSpent + p.engineers }
        p.getAmountProduced := by
      rw [hprodEq]
      omega
    cases hE : (runBatch env
        (producedOf { p with timeSpent := p.timeSpent + p.engineers } p.getAmountProduced)
        (max (producedOf { p with timeSpent := p.timeSpent + p.engineers }
          p.getAmountProduced) 1).toNat
        0 { p with timeSpent := p.timeSpent + p.engineers } b g).early with
    | some st0 =>
      simp only [hE]
      have H := (runBatch_early env _ _ _ _ _ _ st0 hE).1
      have hub : producedOf { p with timeSpent := p.timeSpent + p.engineers }
          p.getAmountProduced ≤ p.amount - p.getAmountProduced := by
        rw [hprodEq]
        omega
      omega
    | none =>
      simp only [hE]
      have Hc := runBatch_count_le env
        (producedOf { p with timeSpent := p.timeSpent + p.engineers } p.getAmountProduced)
        (max (producedOf { p with timeSpent := p.timeSpent + p.engineers }
          p.getAmountProduced) 1).toNat
        0 { p with timeSpent := p.timeSpent + p.engineers } b g
      have hcast : (((max (producedOf { p with timeSpent := p.timeSpent + p.engineers }
          p.getAmountProduced) 1).toNat : Int)) =
          producedOf { p with timeSpent := p.timeSpent + p.engineers }
            p.getAmountProduced := by
        rw [max_eq_left hp1]
        exact Int.toNat_of_nonneg (by omega)
      rw [hcast, zero_add] at Hc
      have hub : producedOf { p with timeSpent := p.timeSpent + p.engineers }
          p.getAmountProduced ≤ p.amount - p.getAmountProduced := by
        rw [hprodEq]
        omega
      omega
  · simp only [stepFull, if_neg hl]
    show (0 : Int) ≤ _
    omega

/-- Witness for C5 on spec scenario 7 at elapsed labor 9: one tick away
from the first of three units, the call realizes at most three units. -/
theorem C5_step_clamped_witness :
    (stepFull env0 (pBasic 9) base0 game250).count ≤
      (pBasic 9).amount - (pBasic 9).getAmountProduced :=
  C5_step_clamped env0 (pBasic 9) base0 game250 rfl (by decide)

/-! ## C2 — mid-batch failure keeps partial progress -/

/-- `primaryItemStep` only touches the tally on the `Production` side. -/
theorem primaryItemStep_fields (s : Production × BaseState × GameState) (i : RuleItem × Int) :
    (primaryItemStep s i).1.rules = s.1.rules ∧
    (primaryItemStep s i).1.sell = s.1.sell ∧
    (primaryItemStep s i).1.timeSpent = s.1.timeSpent := by
  by_cases hs : s.1.sell = true <;>
    by_cases hr : s.1.rules.randomProducedItems = [] <;>
      simp [primaryItemStep, hs, hr]

/-- The primary-output item fold only touches the tally on the
`Production` side. -/
theorem primaryFold_fields (l : List (RuleItem × Int)) :
    ∀ s : Production × BaseState × GameState,
      (List.foldl primaryItemStep s l).1.rules = s.1.rules ∧
      (List.foldl primaryItemStep s l).1.sell = s.1.sell ∧
      (List.foldl primaryItemStep s l).1.timeSpent = s.1.timeSpent := by
  induction l with
  | nil => exact fun s => ⟨rfl, rfl, rfl⟩
  | cons i rest ih =>
    intro s
    have h1 := ih (primaryItemStep s i)
    have h2 := primaryItemStep_fields s i
    simp only [List.foldl_cons]
    exact ⟨h1.1.trans h2.1, h1.2.1.trans h2.2.1, h1.2.2.trans h2.2.2⟩

/-- A weighted-random grant only touches the tally on the `Production`
side. -/
theorem applyRandomItem_fields (s : Production × BaseState × GameState) (i : RuleItem × Int) :
    (applyRandomItem s i).1.rules = s.1.rules ∧
    (applyRandomItem s i).1.sell = s.1.sell ∧
    (applyRandomItem s i).1.timeSpent = s.1.timeSpent :=
  ⟨rfl, rfl, rfl⟩

/-- The weighted-random grant fold only touches the tally on the
`Production` side. -/
theorem randomFold_fields (l : List (RuleItem × Int)) :
    ∀ s : Production × BaseState × GameState,
      (List.foldl applyRandomItem s l).1.rules = s.1.rules ∧
      (List.foldl applyRandomItem s l).1.sell = s.1.sell ∧
      (List.foldl applyRandomItem s l).1.timeSpent = s.1.timeSpent := by
  induction l with
  | nil => exact fun s => ⟨rfl, rfl, rfl⟩
  | cons i rest ih =>
    intro s
    have h1 := ih (applyRandomItem s i)
    simp only [List.foldl_cons]
    exact ⟨h1.1, h1.2.1, h1.2.2⟩

/-- The weighted-random phase only touches the tally on the `Production`
side. -/
theorem applyRandomPhase_fields (env : StepEnv) (count : Int)
    (p : Production) (b : BaseState) (g : GameState) :
    (applyRandomPhase env count p b g).1.rules = p.rules ∧
    (applyRandomPhase env count p b g).1.sell = p.sell ∧
    (applyRandomPhase env count p b g).1.timeSpent = p.timeSpent := by
  unfold applyRandomPhase
  by_cases hr : p.rules.randomProducedItems ≠ []
  · rw [if_pos hr]
    cases hsel : selectRandomSet p.rules.randomProducedItems 0 (env.roll count) with
    | some itemSet => exact randomFold_fields itemSet (p, b, g)
    | none => exact ⟨rfl, rfl, rfl⟩
  · rw [if_neg hr]
    exact ⟨rfl, rfl, rfl⟩

/-- `applyPrimaryOutput` only touches the tally on the `Production`
side. -/
theorem applyPrimaryOutput_fields (p : Production) (b : BaseState) (g : GameState) :
    (applyPrimaryOutput p b g).1.rules = p.rules ∧
    (applyPrimaryOutput p b g).1.sell = p.sell ∧
    (applyPrimaryOutput p b g).1.timeSpent = p.timeSpent := by
  unfold applyPrimaryOutput
  cases hc : p.rules.producedCraft with
  | some craftType => exact ⟨rfl, rfl, rfl⟩
  | none => exact primaryFold_fields p.rules.producedItems (p, b, g)

/-- Realizing one unit only touches the tally on the `Production` side:
the rules reference, the sell flag and the elapsed labor survive. -/
theorem produceUnit_fields (env : StepEnv) (count : Int)
    (p : Production) (b : BaseState) (g : GameState) :
    (produceUnit env count p b g).1.rules = p.rules ∧
    (produceUnit env count p b g).1.sell = p.sell ∧
    (produceUnit env count p b g).1.timeSpent = p.timeSpent := by
  unfold produceUnit
  have h1 := applyPrimaryOutput_fields p b g
  have h2 := applyRandomPhase_fields env count (applyPrimaryOutput p b g).1
    (applyPrimaryOutput p b g).2.1 (applyPrimaryOutput p b g).2.2
  exact ⟨h2.1.trans h1.1, h2.2.1.trans h1.2.1, h2.2.2.trans h1.2.2⟩

/-- Elapsed labor survives any number of full batch iterations. -/
theorem batchIter_timeSpent (env : StepEnv) :
    ∀ (j : Nat) (count : Int) (s : Production × BaseState × GameState),
      (batchIter env j count s).1.timeSpent = s.1.timeSpent := by
  intro j
  induction j with
  | zero => exact fun count s => rfl
  | succ j ih =>
    intro count s
    show (batchIter env j (count + 1) (oneBatchIter env count s)).1.timeSpent = _
    rw [ih]
    exact (produceUnit_fields env count s.1 s.2.1 s.2.2).2.2

/-- An early return of the batch loop leaves exactly the state reached
after the units realized so far: `j` full produce-and-start iterations
followed by the produce of the unit at which the check then failed, with
the loop counter `count` at `j + 1` past its start. -/
theorem runBatch_early_state (env : StepEnv) (produced : Int) :
    ∀ (fuel : Nat) (count : Int) (p : Production) (b : BaseState) (g : GameState)
      (st : productionProgress_e),
      (runBatch env produced fuel count p b g).early = some st →
      ∃ j : Nat,
        (runBatch env produced fuel count p b g).prod =
          (produceUnit env (count + (j : Int)) (batchIter env j count (p, b, g)).1
            (batchIter env j count (p, b, g)).2.1 (batchIter env j count (p, b, g)).2.2).1 ∧
        (runBatch env produced fuel count p b g).base =
          (produceUnit env (count + (j : Int)) (batchIter env j count (p, b, g)).1
            (batchIter env j count (p, b, g)).2.1 (batchIter env j count (p, b, g)).2.2).2.1 ∧
        (runBatch env produced fuel count p b g).game =
          (produceUnit env (count + (j : Int)) (batchIter env j count (p, b, g)).1
            (batchIter env j count (p, b, g)).2.1 (batchIter env j count (p, b, g)).2.2).2.2 ∧
        (runBatch env produced fuel count p b g).count = count + (j : Int) + 1 := by
  intro fuel
  induction fuel with
  | zero =>
    intro count p b g st h
    simp [runBatch] at h
  | succ fuel ih =>
    intro count p b g st h
    simp only [runBatch] at h ⊢
    by_cases h1 : count + 1 < produced
    · rw [if_pos h1] at h ⊢
      by_cases h2 : Production.haveEnoughMoneyForOneMoreUnit
          (produceUnit env count p b g).1 (produceUnit env count p b g).2.2 = false
      · rw [if_pos h2] at h ⊢
        exact ⟨0, by simp [batchIter], by simp [batchIter], by simp [batchIter], by simp⟩
      · rw [if_neg h2] at h ⊢
        by_cases h3 : Production.haveEnoughMaterialsForOneMoreUnit
            (produceUnit env count p b g).1 (produceUnit env count p b g).2.1 = false
        · rw [if_pos h3] at h ⊢
          exact ⟨0, by simp [batchIter], by simp [batchIter], by simp [batchIter], by simp⟩
        · rw [if_neg h3] at h ⊢
          obtain ⟨j, hj1, hj2, hj3, hj4⟩ := ih (count + 1) (produceUnit env count p b g).1
            (Production.startItem (produceUnit env count p b g).1
              (produceUnit env count p b g).2.1 (produceUnit env count p b g).2.2).1
            (Production.startItem (produceUnit env count p b g).1
              (produceUnit env count p b g).2.1 (produceUnit env count p b g).2.2).2
            st h
          refine ⟨j + 1, ?_, ?_, ?_, ?_⟩
          · rw [hj1]
            have hidx : count + 1 + (j : Int) = count + ((j : Nat) + 1 : Nat) := by
              push_cast
              ring
            rw [← hidx]
            rfl
          · rw [hj2]
            have hidx : count + 1 + (j : Int) = count + ((j : Nat) + 1 : Nat) := by
              push_cast
              ring
            rw [← hidx]
            rfl
          · rw [hj3]
            have hidx : count + 1 + (j : Int) = count + ((j : Nat) + 1 : Nat) := by
              push_cast
              ring
            rw [← hidx]
            rfl
          · rw [hj4]
            push_cast
            ring
    · rw [if_neg h1] at h
      simp at h

/-- C2: when a mid-batch affordability check fails (the loop counter
stopped short of `produced`), `step` returns the specific blocking
status (money or materials), and the returned state is exactly the state
at the point of failure — the `j` units already realized (with their
`startItem` debits) plus the just-realized blocking unit are kept, with
no rollback, the elapsed labor keeps the tick's increment, and the tally
(part of the returned order) keeps its value there, so a later `step`
call resumes from that state. -/
theorem C2_midbatch_block (env : StepEnv) (p : Production) (b : BaseState) (g : GameState) :
    (stepFull env p b g).count < (stepFull env p b g).produced →
    ((stepFull env p b g).status = PROGRESS_NOT_ENOUGH_MONEY ∨
     (stepFull env p b g).status = PROGRESS_NOT_ENOUGH_MATERIALS) ∧
    (stepFull env p b g).prod.timeSpent = p.timeSpent + p.engineers ∧
    ∃ j : Nat,
      (stepFull env p b g).count = (j : Int) + 1 ∧
      (stepFull env p b g).prod =
        (produceUnit env (j : Int)
          (batchIter env j 0 ({ p with timeSpent := p.timeSpent + p.engineers }, b, g)).1
          (batchIter env j 0 ({ p with timeSpent := p.timeSpent + p.engineers }, b, g)).2.1
          (batchIter env j 0 ({ p with timeSpent := p.timeSpent + p.engineers }, b, g)).2.2).1 ∧
      (stepFull env p b g).base =
        (produceUnit env (j : Int)
          (batchIter env j 0 ({ p with timeSpent := p.timeSpent + p.engineers }, b, g)).1
          (batchIter env j 0 ({ p with timeSpent := p.timeSpent + p.engineers }, b, g)).2.1
          (batchIter env j 0 ({ p with timeSpent := p.timeSpent + p.engineers }, b, g)).2.2).2.1 ∧
      (stepFull env p b g).game =
        (produceUnit env (j : Int)
          (batchIter env j 0 ({ p with timeSpent := p.timeSpent + p.engineers }, b, g)).1
          (batchIter env j 0 ({ p with timeSpent := p.timeSpent + p.engineers }, b, g)).2.1
          (batchIter env j 0 ({ p with timeSpent := p.timeSpent + p.engineers }, b, g)).2.2).2.2 := by
  intro hcount
  by_cases hl : p.getAmountProduced <
      Production.getAmountProduced { p with timeSpent := p.timeSpent + p.engineers }
  · simp only [stepFull, if_pos hl] at hcount ⊢
    cases hE : (runBatch env
        (producedOf { p with timeSpent := p.timeSpent + p.engineers } p.getAmountProduced)
        (max (producedOf { p with timeSpent := p.timeSpent + p.engineers }
          p.getAmountProduced) 1).toNat
        0 { p with timeSpent := p.timeSpent + p.engineers } b g).early with
    | some st0 =>
      simp only [hE] at hcount ⊢
      have HS := runBatch_early env _ _ _ _ _ _ st0 hE
      obtain ⟨j, hj1, hj2, hj3, hj4⟩ := runBatch_early_state env _ _ _ _ _ _ st0 hE
      rw [zero_add] at hj1 hj2 hj3 hj4
      refine ⟨?_, ?_, j, hj4, hj1, hj2, hj3⟩
      · rcases HS.2 with ⟨hm, _⟩ | ⟨hm, _⟩
        · exact Or.inl hm
        · exact Or.inr hm
      · rw [hj1]
        rw [(produceUnit_fields env _ _ _ _).2.2, batchIter_timeSpent]
    | none =>
      simp only [hE] at hcount ⊢
      have hge : producedOf { p with timeSpent := p.timeSpent + p.engineers }
          p.getAmountProduced ≤
          (runBatch env
            (producedOf { p with timeSpent := p.timeSpent + p.engineers } p.getAmountProduced)
            (max (producedOf { p with timeSpent := p.timeSpent + p.engineers }
              p.getAmountProduced) 1).toNat
            0 { p with timeSpent := p.timeSpent + p.engineers } b g).count := by
        refine runBatch_none_ge env _ _ _ _ _ _ ?_ ?_ hE
        · rw [zero_add]
          exact le_trans (le_max_left _ 1) (Int.self_le_toNat _)
        · exact Or.inr (le_trans (le_max_right _ 1) (Int.self_le_toNat _))
      omega
  · simp only [stepFull, if_neg hl] at hcount
    simp at hcount

/-- Witness for C2: the two-unit batch with 50 funds blocks on money
after the first unit mid-batch. -/
theorem C2_midbatch_block_witness :
    ((stepFull env0 pBatch base0 game50).status = PROGRESS_NOT_ENOUGH_MONEY ∨
     (stepFull env0 pBatch base0 game50).status = PROGRESS_NOT_ENOUGH_MATERIALS) ∧
    (stepFull env0 pBatch base0 game50).prod.timeSpent = pBatch.timeSpent + pBatch.engineers ∧
    ∃ j : Nat,
      (stepFull env0 pBatch base0 game50).count = (j : Int) + 1 ∧
      (stepFull env0 pBatch base0 game50).prod =
        (produceUnit env0 (j : Int)
          (batchIter env0 j 0
            ({ pBatch with timeSpent := pBatch.timeSpent + pBatch.engineers }, base0, game50)).1
          (batchIter env0 j 0
            ({ pBatch with timeSpent := pBatch.timeSpent + pBatch.engineers }, base0, game50)).2.1
          (batchIter env0 j 0
            ({ pBatch with timeSpent := pBatch.timeSpent + pBatch.engineers }, base0, game50)).2.2).1 ∧
      (stepFull env0 pBatch base0 game50).base =
        (produceUnit env0 (j : Int)
          (batchIter env0 j 0
            ({ pBatch with timeSpent := pBatch.timeSpent + pBatch.engineers }, base0, game50)).1
          (batchIter env0 j 0
            ({ pBatch with timeSpent := pBatch.timeSpent + pBatch.engineers }, base0, game50)).2.1
          (batchIter env0 j 0
            ({ pBatch with timeSpent := pBatch.timeSpent + pBatch.engineers }, base0, game50)).2.2).2.1 ∧
      (stepFull env0 pBatch base0 game50).game =
        (produceUnit env0 (j : Int)
          (batchIter env0 j 0
            ({ pBatch with timeSpent := pBatch.timeSpent + pBatch.engineers }, base0, game50)).1
          (batchIter env0 j 0
            ({ pBatch with timeSpent := pBatch.timeSpent + pBatch.engineers }, base0, game50)).2.1
          (batchIter env0 j 0
            ({ pBatch with timeSpent := pBatch.timeSpent + pBatch.engineers }, base0, game50)).2.2).2.2 :=
  C2_midbatch_block env0 pBatch base0 game50 (by decide)

/-! ## C6 — the weighted-random roulette -/

/-- The cumulative scan with accumulator `acc` is the scan from zero on
a roll lowered by `acc`. -/
theorem selectRandomSet_shift (l : List (Int × List (RuleItem × Int))) :
    ∀ (acc roll : Int), selectRandomSet l acc roll = selectRandomSet l 0 (roll - acc) := by
  induction l with
  | nil => intro acc roll; rfl
  | cons s rest ih =>
    intro acc roll
    simp only [selectRandomSet]
    by_cases h : acc + s.1 ≥ roll
    · rw [if_pos h, if_pos (by omega : (0 : Int) + s.1 ≥ roll - acc)]
    · rw [if_neg h, if_neg (by omega : ¬((0 : Int) + s.1 ≥ roll - acc))]
      rw [ih (acc + s.1) roll, ih (0 + s.1) (roll - acc)]
      congr 1
      omega

/-- Peeling one pair off the cumulative weight. -/
theorem cumWeight_cons (s : Int × List (RuleItem × Int))
    (rest : List (Int × List (RuleItem × Int))) (k : Nat) :
    cumWeight (s :: rest) (k + 1) = s.1 + cumWeight rest k := by
  simp [cumWeight]

/-- The cumulative-weight scan returns exactly the smallest-index pair
whose cumulative weight reaches the roll. -/
theorem selectRandomSet_least (l : List (Int × List (RuleItem × Int))) :
    ∀ r : Int, 1 ≤ r → r ≤ cumWeight l l.length →
      ∃ i : Nat, ∃ hi : i < l.length,
        r ≤ cumWeight l (i + 1) ∧
        (∀ k : Nat, k < i → cumWeight l (k + 1) < r) ∧
        selectRandomSet l 0 r = some (l.get ⟨i, hi⟩).2 := by
  induction l with
  | nil =>
    intro r h1 hW
    simp [cumWeight] at hW
    omega
  | cons s rest ih =>
    intro r h1 hW
    have hz : cumWeight rest 0 = 0 := by simp [cumWeight]
    by_cases hc : (0 : Int) + s.1 ≥ r
    · refine ⟨0, Nat.succ_pos _, ?_, ?_, ?_⟩
      · rw [cumWeight_cons]
        omega
      · intro k hk
        exact absurd hk (Nat.not_lt_zero k)
      · simp only [selectRandomSet]
        rw [if_pos hc]
        rfl
    · have hW' : r - s.1 ≤ cumWeight rest rest.length := by
        have h2 := hW
        rw [show (s :: rest).length = rest.length + 1 from rfl, cumWeight_cons] at h2
        omega
      obtain ⟨i, hi, hcur, hmin, hsel⟩ := ih (r - s.1) (by omega) hW'
      refine ⟨i + 1, Nat.succ_lt_succ hi, ?_, ?_, ?_⟩
      · rw [cumWeight_cons]
        omega
      · intro k hk
        cases k with
        | zero =>
          rw [cumWeight_cons]
          omega
        | succ k2 =>
          rw [cumWeight_cons]
          have := hmin k2 (by omega)
          omega
      · simp only [selectRandomSet]
        rw [if_neg hc, selectRandomSet_shift]
        rw [show r - (0 + s.1) = r - s.1 by omega]
        rw [hsel]
        rfl

/-- C6: for weights summing to `W` and any roll `r` in `[1, W]`, the
weighted-random branch selects exactly the smallest-index
weight/output-set pair whose cumulative weight reaches `r`, and the
random phase of a produced unit applies exactly that pair's item
grants. -/
theorem C6_roulette (l : List (Int × List (RuleItem × Int))) (r : Int)
    (h1 : 1 ≤ r) (hW : r ≤ cumWeight l l.length) :
    ∃ i : Nat, ∃ hi : i < l.length,
      r ≤ cumWeight l (i + 1) ∧
      (∀ k : Nat, k < i → cumWeight l (k + 1) < r) ∧
      selectRandomSet l 0 r = some (l.get ⟨i, hi⟩).2 ∧
      (∀ (env : StepEnv) (count : Int) (p : Production) (bb : BaseState) (gg : GameState),
        p.rules.randomProducedItems = l → env.roll count = r →
        applyRandomPhase env count p bb gg =
          List.foldl applyRandomItem (p, bb, gg) (l.get ⟨i, hi⟩).2) := by
  obtain ⟨i, hi, hcur, hmin, hsel⟩ := selectRandomSet_least l r h1 hW
  refine ⟨i, hi, hcur, hmin, hsel, ?_⟩
  intro env count p bb gg hpl hroll
  have hln : l ≠ [] := by
    intro hnil
    rw [hnil] at hi
    exact absurd hi (Nat.not_lt_zero i)
  unfold applyRandomPhase
  rw [hpl, hroll, if_pos hln, hsel]

/-- Witness for C6 on the fixture recipe's single weight-1 set at
roll 1. -/
theorem C6_roulette_witness :
    ∃ i : Nat, ∃ hi : i < recipeRandom.randomProducedItems.length,
      (1 : Int) ≤ cumWeight recipeRandom.randomProducedItems (i + 1) ∧
      (∀ k : Nat, k < i → cumWeight recipeRandom.randomProducedItems (k + 1) < 1) ∧
      selectRandomSet recipeRandom.randomProducedItems 0 1 =
        some (recipeRandom.randomProducedItems.get ⟨i, hi⟩).2 ∧
      (∀ (env : StepEnv) (count : Int) (p : Production) (bb : BaseState) (gg : GameState),
        p.rules.randomProducedItems = recipeRandom.randomProducedItems →
        env.roll count = 1 →
        applyRandomPhase env count p bb gg =
          List.foldl applyRandomItem (p, bb, gg)
            (recipeRandom.randomProducedItems.get ⟨i, hi⟩).2) :=
  C6_roulette recipeRandom.randomProducedItems 1 (by decide) (by decide)

/-! ## C8 — what the tally counts -/

/-- Pointwise value of a map bump. -/
theorem bumpFn_apply (f : String → Int) (k : String) (d : Int) (t : String) :
    bumpFn f k d t = f t + (if k = t then d else 0) := by
  unfold bumpFn
  by_cases h : t = k
  · rw [if_pos h, if_pos h.symm]
  · rw [if_neg h, if_neg (fun hh => h hh.symm)]
    omega

/-- The tally contribution of one primary produced item. -/
theorem primaryItemStep_tally (s : Production × BaseState × GameState)
    (i : RuleItem × Int) (t : String) :
    (primaryItemStep s i).1.randomProductionInfo t =
      s.1.randomProductionInfo t +
        (if s.1.sell = true ∨ s.1.rules.randomProducedItems = [] then 0
         else if i.1.itemType = t then i.2 else 0) := by
  by_cases hs : s.1.sell = true
  · simp [primaryItemStep, hs]
  · by_cases hr : s.1.rules.randomProducedItems = []
    · simp [primaryItemStep, hs, hr]
    · simp [primaryItemStep, hs, hr, bumpFn_apply]

/-- The tally after the primary produced-items fold, pointwise. -/
theorem primaryFold_tally (l : List (RuleItem × Int)) :
    ∀ (s : Production × BaseState × GameState) (t : String),
      (List.foldl primaryItemStep s l).1.randomProductionInfo t =
        s.1.randomProductionInfo t +
          (if s.1.sell = true ∨ s.1.rules.randomProducedItems = [] then 0
           else itemsAt l t) := by
  induction l with
  | nil =>
    intro s t
    simp [itemsAt]
  | cons i rest ih =>
    intro s t
    simp only [List.foldl_cons]
    rw [ih (primaryItemStep s i) t]
    have hf := primaryItemStep_fields s i
    rw [hf.1, hf.2.1, primaryItemStep_tally]
    by_cases hs : s.1.sell = true
    · simp [hs]
    · by_cases hr : s.1.rules.randomProducedItems = []
      · simp [hs, hr]
      · have hcond : ¬(s.1.sell = true ∨ s.1.rules.randomProducedItems = []) := by
          simp [hs, hr]
        simp only [itemsAt, if_neg hcond]
        ring

/-- The tally contribution of one weighted-random grant. -/
theorem applyRandomItem_tally (s : Production × BaseState × GameState)
    (i : RuleItem × Int) (t : String) :
    (applyRandomItem s i).1.randomProductionInfo t =
      s.1.randomProductionInfo t + (if i.1.itemType = t then i.2 else 0) := by
  simp [applyRandomItem, bumpFn_apply]

/-- The tally after a weighted-random set's grant fold, pointwise. -/
theorem randomFold_tally (l : List (RuleItem × Int)) :
    ∀ (s : Production × BaseState × GameState) (t : String),
      (List.foldl applyRandomItem s l).1.randomProductionInfo t =
        s.1.randomProductionInfo t + itemsAt l t := by
  induction l with
  | nil =>
    intro s t
    simp [itemsAt]
  | cons i rest ih =>
    intro s t
    simp only [List.foldl_cons, itemsAt]
    rw [ih (applyRandomItem s i) t, applyRandomItem_tally]
    omega

/-- The tally after the weighted-random phase, pointwise. -/
theorem applyRandomPhase_tally (env : StepEnv) (count : Int)
    (p : Production) (b : BaseState) (g : GameState) (t : String) :
    (applyRandomPhase env count p b g).1.randomProductionInfo t =
      p.randomProductionInfo t +
        (if p.rules.randomProducedItems = [] then 0
         else
           match selectRandomSet p.rules.randomProducedItems 0 (env.roll count) with
           | some itemSet => itemsAt itemSet t
           | none => 0) := by
  unfold applyRandomPhase
  by_cases hr : p.rules.randomProducedItems = []
  · rw [if_neg (not_not_intro hr)]
    simp [hr]
  · rw [if_pos hr]
    cases hsel : selectRandomSet p.rules.randomProducedItems 0 (env.roll count) with
    | some itemSet =>
      rw [randomFold_tally]
      simp [if_neg hr]
    | none => simp [hr]

/-- The tally after the primary-output branch, pointwise. -/
theorem applyPrimaryOutput_tally (p : Production) (b : BaseState) (g : GameState) (t : String) :
    (applyPrimaryOutput p b g).1.randomProductionInfo t =
      p.randomProductionInfo t +
        (match p.rules.producedCraft with
         | some _ => 0
         | none =>
             if p.sell = true ∨ p.rules.randomProducedItems = [] then 0
             else itemsAt p.rules.producedItems t) := by
  unfold applyPrimaryOutput
  cases hc : p.rules.producedCraft with
  | some craftType => simp
  | none => rw [primaryFold_tally]

/-- C8 amended: one produced unit changes each entry of
`_randomProductionInfo` by `tallyDelta`: when the recipe defines
weighted-random outputs, the stocked regular produced items (craft-less,
non-liquidating orders) are counted together with the selected random
set's grants; without weighted-random outputs nothing is tallied. -/
theorem C8_tally_delta (env : StepEnv) (count : Int)
    (p : Production) (b : BaseState) (g : GameState) (t : String) :
    (produceUnit env count p b g).1.randomProductionInfo t =
      p.randomProductionInfo t + tallyDelta env count p t := by
  unfold produceUnit tallyDelta
  rw [applyRandomPhase_tally]
  have hf := applyPrimaryOutput_fields p b g
  rw [hf.1, applyPrimaryOutput_tally]
  cases hcr : p.rules.producedCraft with
  | some ct =>
    by_cases hr : p.rules.randomProducedItems = [] <;>
      cases hsel : selectRandomSet p.rules.randomProducedItems 0 (env.roll count) <;>
        simp [hr, hsel]
  | none =>
    by_cases hr : p.rules.randomProducedItems = []
    · simp [hr]
    · by_cases hs : p.sell = true
      · cases hsel : selectRandomSet p.rules.randomProducedItems 0 (env.roll count) <;>
          simp [hr, hs, hsel]
      · have hsf : p.sell = false := by
          revert hs
          cases p.sell <;> simp
        cases hsel : selectRandomSet p.rules.randomProducedItems 0 (env.roll count) <;>
          simp [hr, hsf, hsel]
        ring

/-- C8 counterexample: on a recipe with weighted-random outputs, a
regular produced item (two `itemX`) is tallied although the selected
random set grants only `itemY`: after one `step` the tally for
`itemX`'s type is 2, not the 0 units granted by the weighted-random
branch. -/
theorem C8_counterexample :
    (stepFull env0 pRandom base0 game250).prod.randomProductionInfo "STR_ITEM_X" = 2 ∧
    selectRandomSet pRandom.rules.randomProducedItems 0 (env0.roll 0) = some [(itemY, 1)] ∧
    itemY.itemType ≠ "STR_ITEM_X" ∧
    pRandom.randomProductionInfo "STR_ITEM_X" = 0 := by
  refine ⟨by decide, by decide, by decide, rfl⟩

end OXC
